import Mathlib

/-!
# Verification of the WS28xx LED transmitter (bl602-ws2811)

Shallow embedding of `src/leds.rs` (module `ws28xx`) and the pin/timer
control surface of `src/pins.rs`.  Pure data and encoding functions are
translated to Lean functions; the hardware-facing transmission routines are
modelled as pure functions that emit the sequence of control-surface
actions (`periodic_start`, `set_pin_high`, `set_pin_low`, `periodic_wait`)
they would perform, in order.
-/

namespace WS28xx

/-- Modelled from the spec: the `Color` type of `colors.rs` (a file of this
repository not present under `src/`): three 8-bit unsigned channel
intensities red, green, blue; default is all-zero.  Its shape is also fixed
by the field accesses `color.r`, `color.g`, `color.b` and
`c::Color::default()` in `src/leds.rs`.  Channel values are bytes carried
around unchanged, so they are modelled as `Nat`. -/
structure Color where
  r : Nat
  g : Nat
  b : Nat
deriving DecidableEq, Repr

/-- `colors.rs` default color: all channels zero (LED off). -/
def Color.default : Color := ⟨0, 0, 0⟩

/-- `StripTimings` from `src/leds.rs` lines 9-13: pulse-width constants of a
target chipset, in nanoseconds. -/
structure StripTimings where
  zero_h : Nat
  one_h : Nat
  full_cycle : Nat
deriving DecidableEq, Repr

/-- `StripTimings::WS2811_ADAFRUIT` (leds.rs lines 17-18). -/
def StripTimings.WS2811_ADAFRUIT : StripTimings :=
  { zero_h := 500, one_h := 1200, full_cycle := 2500 }

/-- `StripTimings::WS2812_ADAFRUIT` (leds.rs lines 19-20). -/
def StripTimings.WS2812_ADAFRUIT : StripTimings :=
  { zero_h := 400, one_h := 800, full_cycle := 1250 }

/-- `WS2811_DELAY_LOOPS_BEFORE_SEND` (leds.rs line 23). -/
def WS2811_DELAY_LOOPS_BEFORE_SEND : Nat := 900

/-- `ColorOrder` (leds.rs lines 26-33): the six channel orderings. -/
inductive ColorOrder where
  | RGB
  | RBG
  | GRB
  | GBR
  | BRG
  | BGR
deriving DecidableEq, Repr

/-- `ColorOrder::offsets` (leds.rs lines 36-46): the wire positions of the
red, green and blue bytes.  The Rust `[usize; 3]` array is modelled as a
triple, component `k` of the array being component `k` of the triple. -/
def ColorOrder.offsets : ColorOrder → Nat × Nat × Nat
  | .RGB => (0, 1, 2)
  | .RBG => (0, 2, 1)
  | .GRB => (1, 0, 2)
  | .BRG => (1, 2, 0)
  | .GBR => (2, 0, 1)
  | .BGR => (2, 1, 0)

/-- `PhysicalStrip` (leds.rs lines 49-54). -/
structure PhysicalStrip where
  pin : Nat
  led_count : Nat
  reversed : Bool
  color_order : ColorOrder
deriving DecidableEq, Repr

/-- One action on the pin/timer control surface of `src/pins.rs`:
`periodic_start(period)` (nanoseconds), `set_pin_low(pin)`,
`set_pin_high(pin)`, `periodic_wait()`. -/
inductive Action where
  | periodicStart (periodNs : Nat)
  | setPinLow (pin : Nat)
  | setPinHigh (pin : Nat)
  | periodicWait
deriving DecidableEq, Repr

/-- The action sequence the `match bit` arm of `PhysicalStrip::send_bits`
(leds.rs lines 79-96) performs for one bit. -/
def sendOneBit (pin : Nat) (bit : Bool) : List Action :=
  match bit with
  | true =>
      [Action.setPinHigh pin, Action.periodicWait, Action.periodicWait,
       Action.setPinLow pin, Action.periodicWait]
  | false =>
      [Action.setPinHigh pin, Action.periodicWait, Action.setPinLow pin,
       Action.periodicWait, Action.periodicWait]

/-- `PhysicalStrip::send_bits` (leds.rs lines 57-98) as the sequence of
control-surface actions it performs: re-arm the periodic timer with
`WS2812_ADAFRUIT.full_cycle / 3` nanoseconds, drive the pin low, busy-wait
`WS2811_DELAY_LOOPS_BEFORE_SEND` ticks for the reset pulse, then emit each
bit's pulse pattern. -/
def PhysicalStrip.send_bits (strip : PhysicalStrip) (bit_buffer : List Bool) :
    List Action :=
  Action.periodicStart (StripTimings.WS2812_ADAFRUIT.full_cycle / 3)
    :: Action.setPinLow strip.pin
    :: (List.replicate WS2811_DELAY_LOOPS_BEFORE_SEND Action.periodicWait
        ++ bit_buffer.flatMap (sendOneBit strip.pin))

/-- The loop body of `PhysicalStrip::colors_to_bytes` (leds.rs lines
109-114): for the `i`-th color, write its channels at `base + offsets[k]`,
`base = i * 3`, into the byte buffer.  `offs` is the strip's
`color_order.offsets()` triple. -/
def colorsToBytesAux (offs : Nat × Nat × Nat) :
    List Color → Nat → List Nat → List Nat
  | [], _, byte_buffer => byte_buffer
  | color :: rest, i, byte_buffer =>
      colorsToBytesAux offs rest (i + 1)
        (((byte_buffer.set (i * 3 + offs.1) color.r).set
            (i * 3 + offs.2.1) color.g).set
          (i * 3 + offs.2.2) color.b)

/-- `PhysicalStrip::colors_to_bytes` (leds.rs lines 100-117): a zero-filled
buffer of length `bufLen` (the Rust code uses the compile-time constant
`MAX_SINGLE_STRIP_BYTE_BUFFER_LENGTH`; here the length is a parameter) with
each color's bytes written at its base offset in channel order. -/
def PhysicalStrip.colors_to_bytes (strip : PhysicalStrip)
    (colors : List Color) (bufLen : Nat) : List Nat :=
  colorsToBytesAux strip.color_order.offsets colors 0 (List.replicate bufLen 0)

/-- MSB-first bits of one byte, as produced by the `Msb0` bit view of
`bitvec` used by `LogicalStrip::bytes_as_bit_slice` (leds.rs lines
141-143). -/
def byteToBitsMsb (byte : Nat) : List Bool :=
  (List.range 8).map (fun i => byte.testBit (7 - i))

/-- `LogicalStrip::bytes_as_bit_slice` (leds.rs lines 141-143): the byte
buffer viewed as a bit sequence, MSB-first within each byte, in byte
order. -/
def bytes_as_bit_slice (bytes : List Nat) : List Bool :=
  bytes.flatMap byteToBitsMsb

/-- The per-strip wire byte sequence built by the loop body of
`LogicalStrip::send_all_sequential` (leds.rs lines 159-166): encode the
slice of colors (reversed first when `strip.reversed`), then keep the
`led_count * 3` semantically valid bytes (`&byte_buffer[..byte_count]`). -/
def stripWireBytes (strip : PhysicalStrip) (colors : List Color)
    (bufLen : Nat) : List Nat :=
  let byte_buffer :=
    match strip.reversed with
    | true => strip.colors_to_bytes colors.reverse bufLen
    | false => strip.colors_to_bytes colors bufLen
  byte_buffer.take (strip.led_count * 3)

/-- `LogicalStrip` (leds.rs lines 120-123): the flat color buffer (the Rust
const-generic length `NUM_LEDS` is the list's length) and the ordered
physical-strip configuration. -/
structure LogicalStrip where
  color_buffer : List Color
  strips : List PhysicalStrip
deriving DecidableEq, Repr

/-- `LogicalStrip::set_color_at_index` (leds.rs lines 131-133).  The Rust
body is `self.color_buffer[index] = color`, whose out-of-bounds indexing
panics; the panic is modelled as `none`. -/
def LogicalStrip.set_color_at_index (s : LogicalStrip) (index : Nat)
    (color : Color) : Option LogicalStrip :=
  if index < s.color_buffer.length then
    some { s with color_buffer := s.color_buffer.set index color }
  else
    none

/-- `LogicalStrip::set_strip_to_solid_color` (leds.rs lines 136-138):
`self.color_buffer = [color; NUM_LEDS]`. -/
def LogicalStrip.set_strip_to_solid_color (s : LogicalStrip)
    (color : Color) : LogicalStrip :=
  { s with color_buffer := List.replicate s.color_buffer.length color }

/-- The loop of `LogicalStrip::send_all_sequential` (leds.rs lines
152-171), instrumented: for each strip in order, record the slice of the
color buffer it reads (`&self.color_buffer[start_index..end_index]`), the
wire byte sequence it encodes, and the action trace of its
`send_bits` call, threading `start_index` exactly as the source does. -/
def sendAllAux (bufLen : Nat) :
    List PhysicalStrip → Nat → List Color →
      List (List Color × List Nat × List Action)
  | [], _, _ => []
  | strip :: rest, start_index, buf =>
      let end_index := start_index + strip.led_count
      let current_strip_colors := (buf.drop start_index).take strip.led_count
      let byte_seq := stripWireBytes strip current_strip_colors bufLen
      (current_strip_colors, byte_seq,
        strip.send_bits (bytes_as_bit_slice byte_seq))
        :: sendAllAux bufLen rest end_index buf

/-- `LogicalStrip::send_all_sequential` (leds.rs lines 146-172) with the
state passed explicitly: the Rust method takes `&self` (a shared borrow)
and performs no write to `self`, so the resulting logical-strip state is
the input state; the first component is the per-strip transmission data in
configured strip order. -/
def LogicalStrip.send_all_sequential (s : LogicalStrip) (bufLen : Nat) :
    List (List Color × List Nat × List Action) × LogicalStrip :=
  (sendAllAux bufLen s.strips 0 s.color_buffer, s)

/-- Byte offset of strip `i`'s slice: the sum of the LED counts of the
strips before it, as accumulated in `start_index`. -/
def stripOffset (strips : List PhysicalStrip) (i : Nat) : Nat :=
  ((strips.take i).map (fun s => s.led_count)).sum

/-! ## Concrete configurations used in the testable-property scenarios -/

/-- Three non-reversed RGB strips with LED counts `[3, 4, 2]` (the partition
scenario of the spec, §8). -/
def exampleStrips342 : List PhysicalStrip :=
  [{ pin := 0, led_count := 3, reversed := false, color_order := .RGB },
   { pin := 1, led_count := 4, reversed := false, color_order := .RGB },
   { pin := 2, led_count := 2, reversed := false, color_order := .RGB }]

/-- Nine pairwise-distinct colors filling the `[3,4,2]` logical strip. -/
def exampleBuffer9 : List Color :=
  (List.range 9).map (fun k => { r := k, g := k, b := k })

/-- The slices of the shared buffer read by each strip of a
`send_all_sequential` call over `exampleStrips342`. -/
def exampleSlices342 : List (List Color) :=
  (sendAllAux 12 exampleStrips342 0 exampleBuffer9).map (fun t => t.1)

/-- A one-LED strip with GRB channel order (spec §8 encode scenario). -/
def stripGRB1 : PhysicalStrip :=
  { pin := 0, led_count := 1, reversed := false, color_order := .GRB }

/-- A one-LED strip with RGB channel order (spec §8 encode scenario). -/
def stripRGB1 : PhysicalStrip :=
  { pin := 0, led_count := 1, reversed := false, color_order := .RGB }

/-- A two-LED non-reversed RGB strip (spec §8 end-to-end scenario). -/
def stripRGB2 : PhysicalStrip :=
  { pin := 0, led_count := 2, reversed := false, color_order := .RGB }

/-- A two-LED logical strip over one physical strip, used to witness the
indexing behaviour of `set_color_at_index`. -/
def witnessLogicalStrip : LogicalStrip :=
  { color_buffer := [{ r := 0, g := 0, b := 0 }, { r := 1, g := 1, b := 1 }],
    strips := [stripRGB2] }

/-! ## Helper lemmas -/

/-- Each bit's pulse pattern performs exactly three `periodic_wait` calls. -/
theorem count_periodicWait_sendOneBit (pin : Nat) (b : Bool) :
    (sendOneBit pin b).count Action.periodicWait = 3 := by
  cases b <;> rfl

/-- Total `periodic_wait` count of the data portion of `send_bits`: three
ticks per bit. -/
theorem count_periodicWait_flatMap (pin : Nat) (bits : List Bool) :
    (bits.flatMap (sendOneBit pin)).count Action.periodicWait =
      3 * bits.length := by
  induction bits with
  | nil => rfl
  | cons b rest ih =>
      simp only [List.flatMap_cons, List.count_append, ih,
        count_periodicWait_sendOneBit, List.length_cons]
      ring

/-- `stripOffset` of the head strip is zero. -/
theorem stripOffset_zero (strips : List PhysicalStrip) :
    stripOffset strips 0 = 0 := by
  simp [stripOffset]

/-- `stripOffset` steps over the head strip by its LED count. -/
theorem stripOffset_cons_succ (s : PhysicalStrip)
    (rest : List PhysicalStrip) (i : Nat) :
    stripOffset (s :: rest) (i + 1) = s.led_count + stripOffset rest i := by
  simp [stripOffset]

/-- The slice read for strip `i` by the `send_all_sequential` loop started
at `start` is the contiguous window of the buffer beginning at
`start + stripOffset strips i` and of length `led_count i`. -/
theorem sendAllAux_slice_get (bufLen : Nat) (strips : List PhysicalStrip) :
    ∀ (start : Nat) (buf : List Color) (i : Nat) (h : i < strips.length),
      ((sendAllAux bufLen strips start buf).map (fun t => t.1))[i]? =
        some ((buf.drop (start + stripOffset strips i)).take
          strips[i].led_count) := by
  induction strips with
  | nil =>
      intro start buf i h
      exact absurd h (by simp)
  | cons s rest ih =>
      intro start buf i h
      cases i with
      | zero =>
          simp [sendAllAux, stripOffset_zero]
      | succ j =>
          have hj : j < rest.length := by
            simpa using Nat.lt_of_succ_lt_succ h
          have hstep := ih (start + s.led_count) buf j hj
          simp only [sendAllAux, List.map_cons, List.getElem?_cons_succ,
            stripOffset_cons_succ, List.getElem_cons_succ]
          rw [show start + (s.led_count + stripOffset rest j) =
            start + s.led_count + stripOffset rest j from by omega]
          exact hstep

/-- Every channel offset is a valid position inside a 3-byte group. -/
theorem offsets_lt_three (o : ColorOrder) :
    o.offsets.1 < 3 ∧ o.offsets.2.1 < 3 ∧ o.offsets.2.2 < 3 := by
  cases o <;> decide

/-- The three channel offsets are pairwise distinct. -/
theorem offsets_pairwise_ne (o : ColorOrder) :
    o.offsets.1 ≠ o.offsets.2.1 ∧ o.offsets.1 ≠ o.offsets.2.2
      ∧ o.offsets.2.1 ≠ o.offsets.2.2 := by
  cases o <;> decide

/-- The encoding loop preserves the byte buffer's length. -/
theorem colorsToBytesAux_length (offs : Nat × Nat × Nat) :
    ∀ (colors : List Color) (i : Nat) (buf : List Nat),
      (colorsToBytesAux offs colors i buf).length = buf.length := by
  intro colors
  induction colors with
  | nil => intro i buf; rfl
  | cons c rest ih =>
      intro i buf
      simp [colorsToBytesAux, ih]

/-- Positions below the current base `i * 3` are never touched by the
remaining iterations of the encoding loop. -/
theorem colorsToBytesAux_getElem_lt (offs : Nat × Nat × Nat) :
    ∀ (colors : List Color) (i : Nat) (buf : List Nat) (j : Nat),
      j < i * 3 →
      (colorsToBytesAux offs colors i buf)[j]? = buf[j]? := by
  intro colors
  induction colors with
  | nil => intro i buf j _; rfl
  | cons c rest ih =>
      intro i buf j hj
      have hstep := ih (i + 1)
        (((buf.set (i * 3 + offs.1) c.r).set (i * 3 + offs.2.1) c.g).set
          (i * 3 + offs.2.2) c.b) j (by omega)
      calc (colorsToBytesAux offs (c :: rest) i buf)[j]? =
          (((buf.set (i * 3 + offs.1) c.r).set (i * 3 + offs.2.1) c.g).set
            (i * 3 + offs.2.2) c.b)[j]? := hstep
        _ = buf[j]? := by
            rw [List.getElem?_set_ne (by omega),
              List.getElem?_set_ne (by omega),
              List.getElem?_set_ne (by omega)]

/-- After the encoding loop starting at base index `k`, the byte at
position `(k + i) * 3 + offset` holds the corresponding channel of the
`i`-th color, provided the buffer is long enough. -/
theorem colorsToBytesAux_getElem_channel (offs : Nat × Nat × Nat)
    (h1 : offs.1 < 3) (h2 : offs.2.1 < 3) (h3 : offs.2.2 < 3)
    (n12 : offs.1 ≠ offs.2.1) (n13 : offs.1 ≠ offs.2.2)
    (n23 : offs.2.1 ≠ offs.2.2) :
    ∀ (colors : List Color) (k : Nat) (buf : List Nat),
      (k + colors.length) * 3 ≤ buf.length →
      ∀ (i : Nat) (hi : i < colors.length),
        (colorsToBytesAux offs colors k buf)[(k + i) * 3 + offs.1]? =
          some colors[i].r
        ∧ (colorsToBytesAux offs colors k buf)[(k + i) * 3 + offs.2.1]? =
            some colors[i].g
        ∧ (colorsToBytesAux offs colors k buf)[(k + i) * 3 + offs.2.2]? =
            some colors[i].b := by
  intro colors
  induction colors with
  | nil =>
      intro k buf _ i hi
      exact absurd hi (by simp)
  | cons c rest ih =>
      intro k buf hlen i hi
      have hblen : buf.length = buf.length := rfl
      have hlenc : (k + (rest.length + 1)) * 3 ≤ buf.length := by
        simpa [List.length_cons] using hlen
      cases i with
      | zero =>
          have hfr := colorsToBytesAux_getElem_lt offs rest (k + 1)
            (((buf.set (k * 3 + offs.1) c.r).set (k * 3 + offs.2.1)
              c.g).set (k * 3 + offs.2.2) c.b)
          have hsetlen :
              (((buf.set (k * 3 + offs.1) c.r).set (k * 3 + offs.2.1)
                c.g).set (k * 3 + offs.2.2) c.b).length = buf.length := by
            simp
          refine ⟨?_, ?_, ?_⟩
          · show (colorsToBytesAux offs (c :: rest) k buf)[(k + 0) * 3 +
              offs.1]? = some c.r
            rw [show (k + 0) * 3 + offs.1 = k * 3 + offs.1 from by omega]
            show (colorsToBytesAux offs rest (k + 1)
              (((buf.set (k * 3 + offs.1) c.r).set (k * 3 + offs.2.1)
                c.g).set (k * 3 + offs.2.2) c.b))[k * 3 + offs.1]? =
              some c.r
            rw [hfr (k * 3 + offs.1) (by omega),
              List.getElem?_set_ne (by omega),
              List.getElem?_set_ne (by omega),
              List.getElem?_set_eq_of_lt c.r (by omega)]
          · show (colorsToBytesAux offs (c :: rest) k buf)[(k + 0) * 3 +
              offs.2.1]? = some c.g
            rw [show (k + 0) * 3 + offs.2.1 = k * 3 + offs.2.1 from by
              omega]
            show (colorsToBytesAux offs rest (k + 1)
              (((buf.set (k * 3 + offs.1) c.r).set (k * 3 + offs.2.1)
                c.g).set (k * 3 + offs.2.2) c.b))[k * 3 + offs.2.1]? =
              some c.g
            rw [hfr (k * 3 + offs.2.1) (by omega),
              List.getElem?_set_ne (by omega),
              List.getElem?_set_eq_of_lt c.g (by simp; omega)]
          · show (colorsToBytesAux offs (c :: rest) k buf)[(k + 0) * 3 +
              offs.2.2]? = some c.b
            rw [show (k + 0) * 3 + offs.2.2 = k * 3 + offs.2.2 from by
              omega]
            show (colorsToBytesAux offs rest (k + 1)
              (((buf.set (k * 3 + offs.1) c.r).set (k * 3 + offs.2.1)
                c.g).set (k * 3 + offs.2.2) c.b))[k * 3 + offs.2.2]? =
              some c.b
            rw [hfr (k * 3 + offs.2.2) (by omega),
              List.getElem?_set_eq_of_lt c.b (by simp; omega)]
      | succ j =>
          have hj : j < rest.length := by
            simpa using Nat.lt_of_succ_lt_succ hi
          have hlen' : ((k + 1) + rest.length) * 3 ≤
              (((buf.set (k * 3 + offs.1) c.r).set (k * 3 + offs.2.1)
                c.g).set (k * 3 + offs.2.2) c.b).length := by
            simp only [List.length_set]
            omega
          have hrec := ih (k + 1)
            (((buf.set (k * 3 + offs.1) c.r).set (k * 3 + offs.2.1)
              c.g).set (k * 3 + offs.2.2) c.b) hlen' j hj
          rw [show k + (j + 1) = (k + 1) + j from by omega]
          simpa [List.getElem_cons_succ] using hrec

/-- `colors_to_bytes` always returns a buffer of the requested scratch
length. -/
theorem length_colors_to_bytes (strip : PhysicalStrip) (colors : List Color)
    (bufLen : Nat) :
    (strip.colors_to_bytes colors bufLen).length = bufLen := by
  simp [PhysicalStrip.colors_to_bytes, colorsToBytesAux_length]

/-- The bit view of a byte sequence has 8 bits per byte. -/
theorem length_bytes_as_bit_slice (bytes : List Nat) :
    (bytes_as_bit_slice bytes).length = 8 * bytes.length := by
  induction bytes with
  | nil => rfl
  | cons b rest ih =>
      simp only [bytes_as_bit_slice, List.flatMap_cons, List.length_append,
        List.length_cons] at *
      simp [byteToBitsMsb, ih]
      ring

/-! ## Claims -/

/-- C1: at the start of every per-strip transmit, `send_bits` re-arms the
periodic timer with period `full_cycle / 3` of the timing profile the code
transmits with (`StripTimings::WS2812_ADAFRUIT`, the profile hardcoded at
leds.rs line 70 and hence the profile of every transmitting strip), so one
tick is one third of the bit period. -/
theorem C1_send_bits_rearms_timer (strip : PhysicalStrip)
    (bits : List Bool) :
    (strip.send_bits bits).head? =
      some (Action.periodicStart
        (StripTimings.WS2812_ADAFRUIT.full_cycle / 3)) := rfl

/-- C2: `send_bits` emits, after its preamble, exactly the per-bit pulse
patterns: a 1-bit is high, wait, wait, low, wait and a 0-bit is high, wait,
low, wait, wait; every bit performs exactly 3 `periodic_wait` ticks, so the
data portion of the trace contains `3 × number of bits` ticks. -/
theorem C2_per_bit_tick_pattern (strip : PhysicalStrip) (bits : List Bool) :
    strip.send_bits bits =
      Action.periodicStart (StripTimings.WS2812_ADAFRUIT.full_cycle / 3)
        :: Action.setPinLow strip.pin
        :: (List.replicate WS2811_DELAY_LOOPS_BEFORE_SEND Action.periodicWait
            ++ bits.flatMap (sendOneBit strip.pin))
    ∧ sendOneBit strip.pin true =
        [Action.setPinHigh strip.pin, Action.periodicWait,
         Action.periodicWait, Action.setPinLow strip.pin,
         Action.periodicWait]
    ∧ sendOneBit strip.pin false =
        [Action.setPinHigh strip.pin, Action.periodicWait,
         Action.setPinLow strip.pin, Action.periodicWait,
         Action.periodicWait]
    ∧ (∀ b : Bool, (sendOneBit strip.pin b).count Action.periodicWait = 3)
    ∧ (bits.flatMap (sendOneBit strip.pin)).count Action.periodicWait =
        3 * bits.length :=
  ⟨rfl, rfl, rfl, count_periodicWait_sendOneBit strip.pin,
    count_periodicWait_flatMap strip.pin bits⟩

/-- C3: a reversed strip over a color list produces the same wire byte
sequence as the corresponding non-reversed strip over the reversed list. -/
theorem C3_reversed_strip_wire_bytes (strip : PhysicalStrip)
    (colors : List Color) (bufLen : Nat) :
    stripWireBytes { strip with reversed := true } colors bufLen =
      stripWireBytes { strip with reversed := false } colors.reverse
        bufLen := rfl

/-- C7: for each of the six `ColorOrder` variants the offsets triple is a
permutation of `{0, 1, 2}`. -/
theorem C7_offsets_permutation (o : ColorOrder) :
    [o.offsets.1, o.offsets.2.1, o.offsets.2.2].Perm [0, 1, 2] := by
  cases o <;> decide

/-- C9: `set_strip_to_solid_color` fills every buffer entry with the given
color (the buffer becomes `replicate length color`, its length unchanged),
and doing it twice equals doing it once. -/
theorem C9_fill_all_idempotent (s : LogicalStrip) (c : Color) :
    (s.set_strip_to_solid_color c).color_buffer =
      List.replicate s.color_buffer.length c
    ∧ (s.set_strip_to_solid_color c).set_strip_to_solid_color c =
        s.set_strip_to_solid_color c := by
  constructor
  · rfl
  · simp [LogicalStrip.set_strip_to_solid_color]

/-- C10: `send_all_sequential` takes the logical strip by shared borrow and
leaves its color buffer and strip configuration unchanged, so a second call
on the resulting state emits exactly the same per-strip wire byte
sequences (and the same full traces). -/
theorem C10_send_all_readonly (s : LogicalStrip) (bufLen : Nat) :
    (s.send_all_sequential bufLen).2 = s
    ∧ ((s.send_all_sequential bufLen).2.send_all_sequential bufLen).1 =
        (s.send_all_sequential bufLen).1
    ∧ (((s.send_all_sequential bufLen).2.send_all_sequential bufLen).1.map
          (fun t => t.2.1)) =
        ((s.send_all_sequential bufLen).1.map (fun t => t.2.1)) :=
  ⟨rfl, rfl, rfl⟩

/-- C4 counterexample: with strip LED counts `[3, 4, 2]` and nine distinct
colors, the color at global index 5 is NOT at local index 1 of the second
strip's slice (it is at local index 2): the claim's concrete example is
false on the code. -/
theorem C4_counterexample_global5_local1 :
    ¬ (exampleSlices342.getD 1 []).getD 1 Color.default =
        exampleBuffer9.getD 5 Color.default := by
  decide

/-- C4 (amended): `send_all_sequential` visits the strips in configured
order and strip `i` reads exactly the contiguous slice starting at the sum
of the previous strips' LED counts; for LED counts `[3, 4, 2]`, global
index 5 resolves to local index 2 of the second strip. -/
theorem C4_partition_slices (strips : List PhysicalStrip) (buf : List Color)
    (bufLen i : Nat) (h : i < strips.length) :
    ((sendAllAux bufLen strips 0 buf).map (fun t => t.1))[i]? =
      some ((buf.drop (stripOffset strips i)).take strips[i].led_count)
    ∧ (exampleSlices342.getD 1 []).getD 2 Color.default =
        exampleBuffer9.getD 5 Color.default := by
  constructor
  · have hmain := sendAllAux_slice_get bufLen strips 0 buf i h
    simpa using hmain
  · decide

/-- Witness for C4 (amended), at the `[3, 4, 2]` configuration and the
second strip (`i = 1`). -/
theorem C4_partition_slices_witness :
    1 < exampleStrips342.length
    ∧ (((sendAllAux 12 exampleStrips342 0 exampleBuffer9).map
          (fun t => t.1))[1]? =
        some ((exampleBuffer9.drop (stripOffset exampleStrips342 1)).take
          exampleStrips342[1].led_count)
      ∧ (exampleSlices342.getD 1 []).getD 2 Color.default =
          exampleBuffer9.getD 5 Color.default) :=
  ⟨by decide,
    C4_partition_slices exampleStrips342 exampleBuffer9 12 1 (by decide)⟩

/-- C5: `colors_to_bytes` places the `i`-th color's red, green and blue
bytes at `base + offsets[0]`, `base + offsets[1]`, `base + offsets[2]` with
`base = i * 3`; concretely, one LED with GRB order and color
`(r=10, g=20, b=30)` encodes to `[20, 10, 30]` and with RGB order to
`[10, 20, 30]`. -/
theorem C5_channel_placement (strip : PhysicalStrip) (colors : List Color)
    (bufLen i : Nat) (hi : i < colors.length)
    (hb : colors.length * 3 ≤ bufLen) :
    (strip.colors_to_bytes colors
        bufLen)[i * 3 + strip.color_order.offsets.1]? = some colors[i].r
    ∧ (strip.colors_to_bytes colors
        bufLen)[i * 3 + strip.color_order.offsets.2.1]? = some colors[i].g
    ∧ (strip.colors_to_bytes colors
        bufLen)[i * 3 + strip.color_order.offsets.2.2]? = some colors[i].b
    ∧ stripGRB1.colors_to_bytes [{ r := 10, g := 20, b := 30 }] 3 =
        [20, 10, 30]
    ∧ stripRGB1.colors_to_bytes [{ r := 10, g := 20, b := 30 }] 3 =
        [10, 20, 30] := by
  obtain ⟨h1, h2, h3⟩ := offsets_lt_three strip.color_order
  obtain ⟨n12, n13, n23⟩ := offsets_pairwise_ne strip.color_order
  have hlen : (0 + colors.length) * 3 ≤
      (List.replicate bufLen (0 : Nat)).length := by
    simp
    omega
  have hmain := colorsToBytesAux_getElem_channel strip.color_order.offsets
    h1 h2 h3 n12 n13 n23 colors 0 (List.replicate bufLen 0) hlen i hi
  rw [show (0 + i) * 3 = i * 3 from by omega] at hmain
  exact ⟨hmain.1, hmain.2.1, hmain.2.2, by decide, by decide⟩

/-- Witness for C5 at the concrete GRB single-LED input. -/
theorem C5_channel_placement_witness :
    0 < ([{ r := 10, g := 20, b := 30 }] : List Color).length
    ∧ ([{ r := 10, g := 20, b := 30 }] : List Color).length * 3 ≤ 3
    ∧ ((stripGRB1.colors_to_bytes [{ r := 10, g := 20, b := 30 }]
          3)[0 * 3 + stripGRB1.color_order.offsets.1]? = some 10
      ∧ (stripGRB1.colors_to_bytes [{ r := 10, g := 20, b := 30 }]
          3)[0 * 3 + stripGRB1.color_order.offsets.2.1]? = some 20
      ∧ (stripGRB1.colors_to_bytes [{ r := 10, g := 20, b := 30 }]
          3)[0 * 3 + stripGRB1.color_order.offsets.2.2]? = some 30
      ∧ stripGRB1.colors_to_bytes [{ r := 10, g := 20, b := 30 }] 3 =
          [20, 10, 30]
      ∧ stripRGB1.colors_to_bytes [{ r := 10, g := 20, b := 30 }] 3 =
          [10, 20, 30]) :=
  ⟨by decide, by decide,
    C5_channel_placement stripGRB1 [{ r := 10, g := 20, b := 30 }] 3 0
      (by decide) (by decide)⟩

/-- C6: the semantically valid wire byte sequence of a strip has exactly
`3 × led_count` bytes and its MSB-first bit view has exactly
`24 × led_count` bits; concretely, the two-LED RGB strip over colors
`[(1,2,3), (4,5,6)]` yields bytes `[1,2,3,4,5,6]`, 48 bits, whose first 8
bits are `0,0,0,0,0,0,0,1`. -/
theorem C6_wire_length_and_bits (strip : PhysicalStrip)
    (colors : List Color) (bufLen : Nat)
    (hb : strip.led_count * 3 ≤ bufLen) :
    (stripWireBytes strip colors bufLen).length = 3 * strip.led_count
    ∧ (bytes_as_bit_slice (stripWireBytes strip colors bufLen)).length =
        24 * strip.led_count
    ∧ stripWireBytes stripRGB2
        [{ r := 1, g := 2, b := 3 }, { r := 4, g := 5, b := 6 }] 6 =
        [1, 2, 3, 4, 5, 6]
    ∧ (bytes_as_bit_slice (stripWireBytes stripRGB2
        [{ r := 1, g := 2, b := 3 }, { r := 4, g := 5, b := 6 }]
        6)).length = 48
    ∧ (bytes_as_bit_slice (stripWireBytes stripRGB2
        [{ r := 1, g := 2, b := 3 }, { r := 4, g := 5, b := 6 }]
        6)).take 8 =
        [false, false, false, false, false, false, false, true] := by
  have hwb : (stripWireBytes strip colors bufLen).length =
      3 * strip.led_count := by
    cases hrev : strip.reversed <;>
      simp [stripWireBytes, hrev, length_colors_to_bytes] <;>
      omega
  refine ⟨hwb, ?_, by decide, by decide, by decide⟩
  rw [length_bytes_as_bit_slice, hwb]
  ring

/-- Witness for C6 at the two-LED RGB scenario. -/
theorem C6_wire_length_and_bits_witness :
    stripRGB2.led_count * 3 ≤ 6
    ∧ ((stripWireBytes stripRGB2
          [{ r := 1, g := 2, b := 3 }, { r := 4, g := 5, b := 6 }]
          6).length = 3 * stripRGB2.led_count
      ∧ (bytes_as_bit_slice (stripWireBytes stripRGB2
          [{ r := 1, g := 2, b := 3 }, { r := 4, g := 5, b := 6 }]
          6)).length = 24 * stripRGB2.led_count
      ∧ stripWireBytes stripRGB2
          [{ r := 1, g := 2, b := 3 }, { r := 4, g := 5, b := 6 }] 6 =
          [1, 2, 3, 4, 5, 6]
      ∧ (bytes_as_bit_slice (stripWireBytes stripRGB2
          [{ r := 1, g := 2, b := 3 }, { r := 4, g := 5, b := 6 }]
          6)).length = 48
      ∧ (bytes_as_bit_slice (stripWireBytes stripRGB2
          [{ r := 1, g := 2, b := 3 }, { r := 4, g := 5, b := 6 }]
          6)).take 8 =
          [false, false, false, false, false, false, false, true]) :=
  ⟨by decide,
    C6_wire_length_and_bits stripRGB2
      [{ r := 1, g := 2, b := 3 }, { r := 4, g := 5, b := 6 }] 6
      (by decide)⟩

/-- C8: with `index < buffer length`, `set_color_at_index` succeeds and
writes exactly that one entry (all other entries, the length and the strip
configuration are unchanged); with `index ≥ buffer length` the Rust
indexing panics, modelled as `none`. -/
theorem C8_set_color_at_index_spec (s : LogicalStrip) (i : Nat)
    (c : Color) :
    (i < s.color_buffer.length →
      ∃ s', s.set_color_at_index i c = some s'
        ∧ s'.strips = s.strips
        ∧ s'.color_buffer.length = s.color_buffer.length
        ∧ s'.color_buffer[i]? = some c
        ∧ ∀ j : Nat, j ≠ i → s'.color_buffer[j]? = s.color_buffer[j]?)
    ∧ (s.color_buffer.length ≤ i → s.set_color_at_index i c = none) := by
  constructor
  · intro h
    refine ⟨{ s with color_buffer := s.color_buffer.set i c }, ?_, rfl,
      by simp, ?_, ?_⟩
    · simp [LogicalStrip.set_color_at_index, h]
    · exact List.getElem?_set_eq_of_lt c h
    · intro j hj
      exact List.getElem?_set_ne (Ne.symm hj)
  · intro h
    simp only [LogicalStrip.set_color_at_index, if_neg (Nat.not_lt.mpr h)]

/-- Witness for C8: in-range write at index 0 and out-of-range panic at
index 5 of the two-LED logical strip. -/
theorem C8_set_color_at_index_witness :
    (0 < witnessLogicalStrip.color_buffer.length
      ∧ ∃ s', witnessLogicalStrip.set_color_at_index 0
            { r := 7, g := 8, b := 9 } = some s'
          ∧ s'.strips = witnessLogicalStrip.strips
          ∧ s'.color_buffer.length =
              witnessLogicalStrip.color_buffer.length
          ∧ s'.color_buffer[0]? = some { r := 7, g := 8, b := 9 }
          ∧ ∀ j : Nat, j ≠ 0 → s'.color_buffer[j]? =
              witnessLogicalStrip.color_buffer[j]?)
    ∧ (witnessLogicalStrip.color_buffer.length ≤ 5
      ∧ witnessLogicalStrip.set_color_at_index 5 { r := 7, g := 8, b := 9 }
          = none) :=
  ⟨⟨by decide,
      (C8_set_color_at_index_spec witnessLogicalStrip 0
        { r := 7, g := 8, b := 9 }).1 (by decide)⟩,
    ⟨by decide,
      (C8_set_color_at_index_spec witnessLogicalStrip 5
        { r := 7, g := 8, b := 9 }).2 (by decide)⟩⟩

end WS28xx
